import Mathlib

/-!
Shallow embedding of the `amplifier-app-utils` repository
(`amplifier_foundation/paths.py`, `amplifier_foundation/mention_loading/resolver.py`,
and the module-manager / session-store utilities), together with theorems
settling the specification claims.

Strings from the Python code are embedded as `List Char`; filesystem paths are
strings joined by `/` following `pathlib.Path.__truediv__` (a right operand that
is absolute replaces the left operand).  The filesystem, the home/current
directories and the external collection resolver (an out-of-scope collaborator
reached through a narrow interface) are abstracted as explicit state records.
-/

namespace AmplifierFoundation

/-- Character strings of the embedded program. -/
abbrev Str := List Char

/-- Boolean test for a character occurring in a string (Python `c in s`). -/
def hasChar : Str → Char → Bool
  | [], _ => false
  | c :: rest, d => c == d || hasChar rest d

/-- Boolean starts-with test (Python `s.startswith(pat)`): `isPre pat s` holds
when `pat` is a prefix of `s`. -/
def isPre : Str → Str → Bool
  | [], _ => true
  | _ :: _, [] => false
  | p :: ps, c :: cs => p == c && isPre ps cs

/-- Boolean substring test (Python `pat in s`). -/
def hasSub (pat : Str) : Str → Bool
  | [] => pat.isEmpty
  | c :: rest => isPre pat (c :: rest) || hasSub pat rest

/-- Split a string at the first occurrence of a character
(Python `s.split(ch, 1)` when `ch` occurs): returns the parts before and after
the first occurrence, or `none` when the character is absent. -/
def splitFirst : Str → Char → Option (Str × Str)
  | [], _ => none
  | c :: rest, d =>
    if c = d then some ([], rest)
    else (splitFirst rest d).map (fun p => (c :: p.1, p.2))

/-- Path join following `pathlib.Path.__truediv__`: an absolute right operand
replaces the left operand, otherwise the components are joined with `/`. -/
def pjoin (a b : Str) : Str :=
  if isPre ['/'] b then b else a ++ '/' :: b

/-- Parent directory of a path (`pathlib.Path.parent`): everything before the
last `/` separator. -/
def parentOf (p : Str) : Str :=
  ((p.reverse.dropWhile (fun c => ¬ c = '/')).drop 1).reverse

/-- Filesystem state abstraction: existence, regular-file test and path
normalization (`Path.exists`, `Path.is_file`, `Path.resolve`). -/
structure FS where
  pathExists : Str → Bool
  isFile : Str → Bool
  realpath : Str → Str

/-- Embedding of `PathManager` (`paths.py`): the three policy directories. -/
structure PathManager where
  user_dir : Str
  project_dir : Str
  bundled_dir : Str

/-- Process environment: current working directory, home directory, and the
collection resolver reached through `create_collection_resolver().resolve`
(an external collaborator, abstracted as a function from collection name to
optional collection path). -/
structure Env where
  cwd : Str
  home : Str
  collectionResolve : Str → Option Str

/-- Embedding of `MentionResolver.__init__` state (`resolver.py`). -/
structure MentionResolver where
  path_manager : PathManager
  relative_to : Option Str

/-- Embedding of `MentionResolver._resolve_relative` (`resolver.py`, lines
140-148): resolves a `./`- or `../`-style mention against `relative_to` only,
requiring the resolved path to exist and be a regular file. -/
def MentionResolver._resolve_relative (r : MentionResolver) (fs : FS)
    (path : Str) : Option Str :=
  match r.relative_to with
  | none => none
  | some base =>
    let resolved := fs.realpath (pjoin base path)
    if fs.pathExists resolved = true ∧ fs.isFile resolved = true then
      some resolved
    else none

/-- Embedding of `MentionResolver.resolve` (`resolver.py`, lines 40-138),
translated branch by branch:
1. a colon after the first character (and not an `@~/` mention) selects the
   prefixed branch: split at the first colon, reject `..` in the path part,
   then dispatch on `user` / `project` / collection reference;
2. `@~/` mentions resolve against the home directory;
3. remaining mentions strip leading `@`, handle `./` and `../` via
   `_resolve_relative`, and otherwise try `relative_to` then the cwd. -/
def MentionResolver.resolve (r : MentionResolver) (env : Env) (fs : FS)
    (mention : Str) : Option Str :=
  if hasChar (mention.drop 1) ':' = true ∧ isPre ['@', '~', '/'] mention = false then
    match splitFirst (mention.drop 1) ':' with
    | none => none
    | some (pfx, path) =>
      if hasSub ['.', '.'] path = true then none
      else if pfx = ['u', 's', 'e', 'r'] then
        let user_path := pjoin r.path_manager.user_dir path
        if fs.pathExists user_path = true then some (fs.realpath user_path)
        else none
      else if pfx = ['p', 'r', 'o', 'j', 'e', 'c', 't'] then
        let project_path := pjoin (pjoin env.cwd r.path_manager.project_dir) path
        if fs.pathExists project_path = true then some (fs.realpath project_path)
        else none
      else
        match env.collectionResolve pfx with
        | some collection_path =>
          let resource_path := pjoin collection_path path
          if fs.pathExists resource_path = true then
            some (fs.realpath resource_path)
          else if fs.pathExists (pjoin collection_path
              ['p', 'y', 'p', 'r', 'o', 'j', 'e', 'c', 't', '.', 't', 'o', 'm', 'l']) = true then
            let parent_resource_path := pjoin (parentOf collection_path) path
            if fs.pathExists parent_resource_path = true then
              some (fs.realpath parent_resource_path)
            else none
          else none
        | none => none
  else if isPre ['@', '~', '/'] mention = true then
    let path_str := mention.drop 3
    let home_path := pjoin env.home path_str
    if fs.pathExists home_path = true then some (fs.realpath home_path)
    else none
  else
    let path_str := mention.dropWhile (fun c => c = '@')
    if isPre ['.', '/'] path_str = true ∨ isPre ['.', '.', '/'] path_str = true then
      r._resolve_relative fs path_str
    else
      let tryRel :=
        match r.relative_to with
        | some base =>
          let candidate := pjoin base path_str
          if fs.pathExists candidate = true then some (fs.realpath candidate)
          else none
        | none => none
      match tryRel with
      | some p => some p
      | none =>
        let candidate := pjoin env.cwd path_str
        if fs.pathExists candidate = true then some (fs.realpath candidate)
        else none

/-- The `@user:path` rule of `resolve` (`resolver.py`, lines 69-74): look up
`user_dir / path`. -/
def userRule (pm : PathManager) (fs : FS) (path : Str) : Option Str :=
  let user_path := pjoin pm.user_dir path
  if fs.pathExists user_path = true then some (fs.realpath user_path) else none

/-- The `@project:path` rule of `resolve` (`resolver.py`, lines 76-81): look up
`cwd / project_dir / path`. -/
def projectRule (pm : PathManager) (env : Env) (fs : FS) (path : Str) :
    Option Str :=
  let project_path := pjoin (pjoin env.cwd pm.project_dir) path
  if fs.pathExists project_path = true then some (fs.realpath project_path)
  else none

/-- The collection-reference rule of `resolve` (`resolver.py`, lines 83-105):
resolve the collection, look under its path, and fall back to the collection
path's parent when a `pyproject.toml` is present. -/
def collectionRule (env : Env) (fs : FS) (pfx path : Str) : Option Str :=
  match env.collectionResolve pfx with
  | some collection_path =>
    let resource_path := pjoin collection_path path
    if fs.pathExists resource_path = true then some (fs.realpath resource_path)
    else if fs.pathExists (pjoin collection_path
        ['p', 'y', 'p', 'r', 'o', 'j', 'e', 'c', 't', '.', 't', 'o', 'm', 'l']) = true then
      let parent_resource_path := pjoin (parentOf collection_path) path
      if fs.pathExists parent_resource_path = true then
        some (fs.realpath parent_resource_path)
      else none
    else none
  | none => none

/-- The `@~/path` rule of `resolve` (`resolver.py`, lines 108-116): look up
`home / path`. -/
def homeRule (env : Env) (fs : FS) (path : Str) : Option Str :=
  let home_path := pjoin env.home path
  if fs.pathExists home_path = true then some (fs.realpath home_path) else none

/-- The plain `@path` rule of `resolve` (`resolver.py`, lines 119-138):
`./`- and `../`-style paths go to `_resolve_relative`; otherwise try
`relative_to` (when set) and then the cwd. -/
def plainRule (r : MentionResolver) (env : Env) (fs : FS) (path_str : Str) :
    Option Str :=
  if isPre ['.', '/'] path_str = true ∨ isPre ['.', '.', '/'] path_str = true then
    r._resolve_relative fs path_str
  else
    let tryRel :=
      match r.relative_to with
      | some base =>
        let candidate := pjoin base path_str
        if fs.pathExists candidate = true then some (fs.realpath candidate)
        else none
      | none => none
    match tryRel with
    | some p => some p
    | none =>
      let candidate := pjoin env.cwd path_str
      if fs.pathExists candidate = true then some (fs.realpath candidate)
      else none

/-- The plain `@path` rule as the specification claim words it: resolve
relative to the `relative_to` base (if set) and then the current working
directory, with no special treatment of `./` or `../` syntax and no
regular-file requirement. -/
def claimedPlainRule (r : MentionResolver) (env : Env) (fs : FS)
    (path_str : Str) : Option Str :=
  let tryRel :=
    match r.relative_to with
    | some base =>
      let candidate := pjoin base path_str
      if fs.pathExists candidate = true then some (fs.realpath candidate)
      else none
    | none => none
  match tryRel with
  | some p => some p
  | none =>
    let candidate := pjoin env.cwd path_str
    if fs.pathExists candidate = true then some (fs.realpath candidate)
    else none

/-- Embedding of `ConfigPaths` (from `amplifier_config`, as used by
`PathManager.get_config_paths`): the user path is always present, the project
and local paths may be disabled (`None`). -/
structure ConfigPaths where
  user : Str
  project : Option Str
  local_ : Option Str
  deriving DecidableEq

/-- Embedding of `PathManager.get_config_paths` (`paths.py`, lines 95-123):
when the cwd is the home directory, project and local scopes are disabled;
otherwise they point into `project_dir`. -/
def PathManager.get_config_paths (pm : PathManager) (env : Env) : ConfigPaths :=
  if env.cwd = env.home then
    { user := pjoin pm.user_dir ['s', 'e', 't', 't', 'i', 'n', 'g', 's', '.', 'y', 'a', 'm', 'l']
      project := none
      local_ := none }
  else
    { user := pjoin pm.user_dir ['s', 'e', 't', 't', 'i', 'n', 'g', 's', '.', 'y', 'a', 'm', 'l']
      project := some (pjoin pm.project_dir ['s', 'e', 't', 't', 'i', 'n', 'g', 's', '.', 'y', 'a', 'm', 'l'])
      local_ := some (pjoin pm.project_dir ['s', 'e', 't', 't', 'i', 'n', 'g', 's', '.', 'l', 'o', 'c', 'a', 'l', '.', 'y', 'a', 'm', 'l']) }

/-- Embedding of `PathManager.get_collection_search_paths` (`paths.py`, lines
133-148): project collections, then user collections, then bundled
collections. -/
def PathManager.get_collection_search_paths (pm : PathManager) (env : Env) :
    List Str :=
  [ pjoin (pjoin env.cwd pm.project_dir) ['c', 'o', 'l', 'l', 'e', 'c', 't', 'i', 'o', 'n', 's'],
    pjoin pm.user_dir ['c', 'o', 'l', 'l', 'e', 'c', 't', 'i', 'o', 'n', 's'],
    pjoin pm.bundled_dir ['c', 'o', 'l', 'l', 'e', 'c', 't', 'i', 'o', 'n', 's'] ]

/-- Embedding of the `Scope` enum from `amplifier_config` (the three members
used by `_SCOPE_MAP` in `paths.py`). -/
inductive Scope where
  | LOCAL
  | PROJECT
  | USER
  deriving DecidableEq

/-- Embedding of `ConfigManager` as used by `validate_scope_for_write`: its
only observed behaviour is `is_scope_available`. -/
structure ConfigManager where
  is_scope_available : Scope → Bool

/-- Embedding of `_SCOPE_MAP` (`paths.py`, lines 23-27): the association of
the three scope names to `Scope` members. -/
def _SCOPE_MAP : List (Str × Scope) :=
  [ (['l', 'o', 'c', 'a', 'l'], Scope.LOCAL),
    (['p', 'r', 'o', 'j', 'e', 'c', 't'], Scope.PROJECT),
    (['g', 'l', 'o', 'b', 'a', 'l'], Scope.USER) ]

/-- Dictionary lookup on an association list (Python `dict[key]`, as `Option`
for the `KeyError` case). -/
def lookupAssoc : List (Str × Scope) → Str → Option Scope
  | [], _ => none
  | (k, v) :: rest, key => if k = key then some v else lookupAssoc rest key

/-- Outcome of `validate_scope_for_write`: a returned scope name, a raised
`ScopeNotAvailableError` carrying the requested scope, or a `KeyError` from
`_SCOPE_MAP[scope]` on a name outside the map. -/
inductive ValidateOutcome where
  | ok : Str → ValidateOutcome
  | scopeNotAvailable : Str → ValidateOutcome
  | keyError : ValidateOutcome
  deriving DecidableEq

/-- Embedding of `validate_scope_for_write` (`paths.py`, lines 441-481):
look the scope name up in `_SCOPE_MAP`, return it when available, fall back to
`global` when allowed, otherwise raise `ScopeNotAvailableError`. -/
def validate_scope_for_write (scope : Str) (config : ConfigManager)
    (allow_fallback : Bool) : ValidateOutcome :=
  match lookupAssoc _SCOPE_MAP scope with
  | none => ValidateOutcome.keyError
  | some scope_enum =>
    if config.is_scope_available scope_enum = true then ValidateOutcome.ok scope
    else if allow_fallback = true then
      ValidateOutcome.ok ['g', 'l', 'o', 'b', 'a', 'l']
    else ValidateOutcome.scopeNotAvailable scope

/-- Modelled from the spec: `amplifier_foundation/module_manager.py` is not in
the source tree (only its tests are).  A module-list entry of a settings
document: a `module` identifier with an optional `source` URI and an opaque
optional `config` payload, per the spec's module glossary entry. -/
structure ModEntry where
  module : Str
  source : Option Str
  config : Option Str
  deriving DecidableEq

/-- Modelled from the spec: a top-level value of a YAML-like settings
document is either an opaque scalar or a structured module list. -/
inductive Value where
  | scalar : Str → Value
  | modules : List ModEntry → Value
  deriving DecidableEq

/-- A YAML-like settings document: an association of top-level keys to
values (Python dict semantics, keys unique in practice). -/
abbrev Doc := List (Str × Value)

/-- First-match lookup of a top-level key (Python `doc.get(key)`). -/
def lookupDoc : Doc → Str → Option Value
  | [], _ => none
  | (k, v) :: rest, key => if k = key then some v else lookupDoc rest key

/-- Update a top-level key in place, appending when absent
(Python `doc[key] = value`). -/
def setDoc : Doc → Str → Value → Doc
  | [], key, value => [(key, value)]
  | (k, v) :: rest, key, value =>
    if k = key then (key, value) :: rest else (k, v) :: setDoc rest key value

/-- Delete a top-level key (Python `del doc[key]`). -/
def eraseDoc (doc : Doc) (key : Str) : Doc :=
  doc.filter (fun p => decide (¬ p.1 = key))

/-- Section name for a module type (`tool` is stored under `tools`, `provider`
under `providers`, `hook` under `hooks`, ...). -/
def sectionName (module_type : Str) : Str := module_type ++ ['s']

/-- The module list stored under the section for a module type (empty when the
section is absent or not a module list). -/
def sectionList (doc : Doc) (module_type : Str) : List ModEntry :=
  match lookupDoc doc (sectionName module_type) with
  | some (Value.modules l) => l
  | _ => []

/-- Modelled from the spec: `ModuleManager.add_module`
(`module_manager.py`, absent from the source tree; behaviour pinned by
`tests/test_module_manager.py` and the spec's "append/update/remove semantics
for structured module lists ... with duplicate-prevention").  Reads the
section for the module type, appends an entry for the module id unless one
with the same id is already present, and writes the document back. -/
def add_module (doc : Doc) (module_id module_type : Str)
    (source config : Option Str) : Doc :=
  let sec := sectionName module_type
  let lst := sectionList doc module_type
  let lst' :=
    if lst.any (fun e => decide (e.module = module_id)) then lst
    else lst ++ [{ module := module_id, source := source, config := config }]
  setDoc doc sec (Value.modules lst')

/-- Modelled from the spec: `ModuleManager.remove_module`
(`module_manager.py`, absent from the source tree; behaviour pinned by
`tests/test_module_manager.py` and the spec's "append/update/remove semantics
... with duplicate-prevention and empty-section cleanup").  Removes the
entries whose `module` field matches the id from the section for the module
type, deletes the section when it becomes empty, and reports whether an entry
was removed. -/
def remove_module (doc : Doc) (module_id module_type : Str) : Doc × Bool :=
  let sec := sectionName module_type
  match lookupDoc doc sec with
  | some (Value.modules l) =>
    if l.any (fun e => decide (e.module = module_id)) then
      let l' := l.filter (fun e => decide (¬ e.module = module_id))
      if l' = [] then (eraseDoc doc sec, true)
      else (setDoc doc sec (Value.modules l'), true)
    else (doc, false)
  | _ => (doc, false)

/-- Modelled from the spec: the session-id validity test of
`SessionStore.save` (`session_store.py`, absent from the source tree;
behaviour pinned by `tests/test_session_store.py`): the id must be non-empty
and contain no path separator and no parent-directory `..` component. -/
def isValidSessionId (session_id : Str) : Bool :=
  !session_id.isEmpty && !hasChar session_id '/' && !hasChar session_id '\\'
    && !hasSub ['.', '.'] session_id

/-- Modelled from the spec: `SessionStore` state (`session_store.py`, absent
from the source tree; spec: "no persistent index structure beyond a
directory-per-session layout").  The store keeps its base directory and the
ids of the session directories created by saves. -/
structure SessionStore where
  base_dir : Str
  sessions : List Str

/-- The directory of a session: named by the session id, directly beneath the
store's base directory. -/
def SessionStore.session_dir (st : SessionStore) (session_id : Str) : Str :=
  pjoin st.base_dir session_id

/-- Modelled from the spec: `SessionStore.save` (`session_store.py`, absent
from the source tree; behaviour pinned by `tests/test_session_store.py`):
an empty id raises `ValueError("session_id cannot be empty")`, an id with a
path separator or `..` raises `ValueError("Invalid session_id")`, and a valid
save creates (idempotently) the session's directory beneath `base_dir`. -/
def SessionStore.save (st : SessionStore) (session_id : Str) :
    Except Str SessionStore :=
  if session_id.isEmpty then
    Except.error ("session_id cannot be empty").data
  else if hasChar session_id '/' || hasChar session_id '\\'
      || hasSub ['.', '.'] session_id then
    Except.error ("Invalid session_id").data
  else
    Except.ok { st with
      sessions :=
        if session_id ∈ st.sessions then st.sessions
        else session_id :: st.sessions }

/-- State of the store after a `save` call: unchanged when the save was
rejected. -/
def SessionStore.afterSave (st : SessionStore) (session_id : Str) :
    SessionStore :=
  match st.save session_id with
  | Except.ok st' => st'
  | Except.error _ => st

/-- Modelled from the spec: `SessionStore.exists` (`session_store.py`, absent
from the source tree): a session exists exactly when its directory is present
beneath `base_dir`. -/
def SessionStore.exists_dir (st : SessionStore) (session_id : Str) : Bool :=
  decide (session_id ∈ st.sessions)

/-- Run a sequence of `save` calls (rejected saves leave the store
unchanged). -/
def runSaves (st : SessionStore) : List Str → SessionStore
  | [] => st
  | id :: rest => runSaves (st.afterSave id) rest

/-! Helper lemmas shared by the claim theorems. -/

theorem hasChar_append_cons (a b : Str) (c : Char) :
    hasChar (a ++ c :: b) c = true := by
  induction a with
  | nil => simp [hasChar]
  | cons x rest ih => simp [hasChar, ih]

theorem splitFirst_append_cons : ∀ (a b : Str) (c : Char),
    hasChar a c = false → splitFirst (a ++ c :: b) c = some (a, b)
  | [], b, c, _ => by simp [splitFirst]
  | x :: rest, b, c, h => by
    simp only [hasChar, Bool.or_eq_false_iff, beq_eq_false_iff_ne, ne_eq] at h
    show (if x = c then some ([], rest ++ c :: b)
        else (splitFirst (rest ++ c :: b) c).map (fun p => (x :: p.1, p.2)))
      = some (x :: rest, b)
    rw [if_neg h.1, splitFirst_append_cons rest b c h.2]
    rfl

theorem isPre_two_append (x y : Char) (a : Str) (c : Char) (b : Str)
    (h : isPre [x, y] a = false) (hx : (x == c) = false)
    (hy : (y == c) = false) : isPre [x, y] (a ++ c :: b) = false := by
  match a with
  | [] => simp [isPre, hx]
  | [z] => simp [isPre, hy]
  | z :: w :: rest => simpa [isPre] using h

theorem dropWhile_at_cons (path : Str) (h : isPre ['@'] path = false) :
    List.dropWhile (fun ch => decide (ch = '@')) ('@' :: path) = path := by
  match path with
  | [] => rfl
  | p :: rest =>
    simp only [isPre, Bool.and_true, beq_eq_false_iff_ne, ne_eq] at h
    simp [List.dropWhile, Ne.symm h]

theorem lookup_set_self (doc : Doc) (k : Str) (v : Value) :
    lookupDoc (setDoc doc k v) k = some v := by
  induction doc with
  | nil => simp [setDoc, lookupDoc]
  | cons p rest ih =>
    by_cases h : p.1 = k
    · simp [setDoc, h, lookupDoc]
    · simp [setDoc, h, lookupDoc, ih]

theorem lookup_set_ne (doc : Doc) (k k' : Str) (v : Value) (h : k' ≠ k) :
    lookupDoc (setDoc doc k v) k' = lookupDoc doc k' := by
  induction doc with
  | nil => simp [setDoc, lookupDoc, Ne.symm h]
  | cons p rest ih =>
    by_cases hp : p.1 = k
    · simp [setDoc, hp, lookupDoc, h, Ne.symm h]
    · by_cases hp' : p.1 = k'
      · simp [setDoc, hp, lookupDoc, hp', h]
      · simp [setDoc, hp, lookupDoc, hp', ih, h]

theorem lookup_erase_self (doc : Doc) (k : Str) :
    lookupDoc (eraseDoc doc k) k = none := by
  induction doc with
  | nil => simp [eraseDoc, lookupDoc]
  | cons p rest ih =>
    by_cases h : p.1 = k
    · simpa [eraseDoc, h] using ih
    · simpa [eraseDoc, lookupDoc, h] using ih

theorem lookup_erase_ne (doc : Doc) (k k' : Str) (h : k' ≠ k) :
    lookupDoc (eraseDoc doc k) k' = lookupDoc doc k' := by
  induction doc with
  | nil => simp [eraseDoc, lookupDoc]
  | cons p rest ih =>
    by_cases hp : p.1 = k
    · have hk : ¬ (k : Str) = k' := fun e => h e.symm
      simpa [eraseDoc, lookupDoc, hp, hk] using ih
    · by_cases hp' : p.1 = k'
      · simp [eraseDoc, lookupDoc, List.filter_cons, hp, hp', h]
      · simpa [eraseDoc, lookupDoc, List.filter_cons, hp, hp', h] using ih

/-- C5: for every `PathManager`, `get_collection_search_paths` returns exactly
three paths in precedence order: the project collections directory
(`cwd/project_dir/collections`) first, the user collections directory
(`user_dir/collections`) second, and the bundled collections directory
(`bundled_dir/collections`) last. -/
theorem claim_C5_collection_search_paths (pm : PathManager) (env : Env) :
    (pm.get_collection_search_paths env).length = 3 ∧
    pm.get_collection_search_paths env =
      [ pjoin (pjoin env.cwd pm.project_dir) ['c', 'o', 'l', 'l', 'e', 'c', 't', 'i', 'o', 'n', 's'],
        pjoin pm.user_dir ['c', 'o', 'l', 'l', 'e', 'c', 't', 'i', 'o', 'n', 's'],
        pjoin pm.bundled_dir ['c', 'o', 'l', 'l', 'e', 'c', 't', 'i', 'o', 'n', 's'] ] :=
  ⟨rfl, rfl⟩

/-- C10: for every `PathManager`, `get_config_paths` returns the user settings
path `user_dir/settings.yaml` unconditionally, and returns project and local
paths of `None` exactly when the current working directory equals the home
directory; otherwise project is `project_dir/settings.yaml` and local is
`project_dir/settings.local.yaml`. -/
theorem claim_C10_config_paths (pm : PathManager) (env : Env) :
    (pm.get_config_paths env).user =
      pjoin pm.user_dir ['s', 'e', 't', 't', 'i', 'n', 'g', 's', '.', 'y', 'a', 'm', 'l'] ∧
    ((pm.get_config_paths env).project = none ↔ env.cwd = env.home) ∧
    ((pm.get_config_paths env).local_ = none ↔ env.cwd = env.home) ∧
    (env.cwd ≠ env.home →
      (pm.get_config_paths env).project =
        some (pjoin pm.project_dir ['s', 'e', 't', 't', 'i', 'n', 'g', 's', '.', 'y', 'a', 'm', 'l']) ∧
      (pm.get_config_paths env).local_ =
        some (pjoin pm.project_dir
          ['s', 'e', 't', 't', 'i', 'n', 'g', 's', '.', 'l', 'o', 'c', 'a', 'l', '.', 'y', 'a', 'm', 'l'])) := by
  by_cases h : env.cwd = env.home <;>
    simp [PathManager.get_config_paths, h]

/-- Witness for C10 at a concrete path manager whose cwd differs from home:
the project settings path is enabled and points into the project directory. -/
theorem claim_C10_config_paths_witness :
    (PathManager.get_config_paths ⟨['u'], ['p'], ['b']⟩
        ⟨['c'], ['h'], fun _ => none⟩).project =
      some (pjoin ['p'] ['s', 'e', 't', 't', 'i', 'n', 'g', 's', '.', 'y', 'a', 'm', 'l']) :=
  ((claim_C10_config_paths ⟨['u'], ['p'], ['b']⟩
    ⟨['c'], ['h'], fun _ => none⟩).2.2.2 (by decide)).1

/-- C4: `validate_scope_for_write` is defined exactly for the three scope
names `local`, `project` and `global` (any other name is a `KeyError` from
`_SCOPE_MAP`); for such a scope it returns the requested scope when available,
returns `global` when the scope is unavailable and fallback is allowed, and
raises `ScopeNotAvailableError` if and only if the scope is unavailable and
fallback is not allowed. -/
theorem claim_C4_validate_scope (scope : Str) (config : ConfigManager)
    (allow_fallback : Bool) :
    (lookupAssoc _SCOPE_MAP scope = none ↔
      ¬ (scope = ['l', 'o', 'c', 'a', 'l'] ∨ scope = ['p', 'r', 'o', 'j', 'e', 'c', 't'] ∨
         scope = ['g', 'l', 'o', 'b', 'a', 'l'])) ∧
    (lookupAssoc _SCOPE_MAP scope = none →
      validate_scope_for_write scope config allow_fallback = ValidateOutcome.keyError) ∧
    (∀ e, lookupAssoc _SCOPE_MAP scope = some e →
      (config.is_scope_available e = true →
        validate_scope_for_write scope config allow_fallback = ValidateOutcome.ok scope) ∧
      (config.is_scope_available e = false → allow_fallback = true →
        validate_scope_for_write scope config allow_fallback =
          ValidateOutcome.ok ['g', 'l', 'o', 'b', 'a', 'l']) ∧
      (validate_scope_for_write scope config allow_fallback =
          ValidateOutcome.scopeNotAvailable scope ↔
        config.is_scope_available e = false ∧ allow_fallback = false)) := by
  have hsome : ∀ e, lookupAssoc _SCOPE_MAP scope = some e →
      validate_scope_for_write scope config allow_fallback =
        (if config.is_scope_available e = true then ValidateOutcome.ok scope
         else if allow_fallback = true then
           ValidateOutcome.ok ['g', 'l', 'o', 'b', 'a', 'l']
         else ValidateOutcome.scopeNotAvailable scope) := by
    intro e he
    unfold validate_scope_for_write
    rw [he]
  refine ⟨?_, ?_, ?_⟩
  · constructor
    · intro h hmem
      rcases hmem with h1 | h1 | h1 <;> subst h1 <;>
        simp [lookupAssoc, _SCOPE_MAP] at h
    · intro h
      push_neg at h
      obtain ⟨n1, n2, n3⟩ := h
      simp only [_SCOPE_MAP, lookupAssoc]
      rw [if_neg (fun e => n1 e.symm), if_neg (fun e => n2 e.symm),
        if_neg (fun e => n3 e.symm)]
  · intro h
    unfold validate_scope_for_write
    rw [h]
  · intro e he
    rw [hsome e he]
    refine ⟨?_, ?_, ?_⟩
    · intro ha; rw [if_pos ha]
    · intro ha hf
      rw [if_neg (by simp [ha]), if_pos hf]
    · constructor
      · intro hout
        by_cases ha : config.is_scope_available e = true
        · rw [if_pos ha] at hout; exact absurd hout (by simp)
        · by_cases hf : allow_fallback = true
          · rw [if_neg ha, if_pos hf] at hout; exact absurd hout (by simp)
          · exact ⟨by simpa using ha, by simpa using hf⟩
      · rintro ⟨ha, hf⟩
        rw [if_neg (by simp [ha]), if_neg (by simp [hf])]

/-- Witness for C4 at the concrete scope `local` with an unavailable scope and
no fallback: the call raises `ScopeNotAvailableError` for that scope. -/
theorem claim_C4_validate_scope_witness :
    validate_scope_for_write ['l', 'o', 'c', 'a', 'l'] ⟨fun _ => false⟩ false =
      ValidateOutcome.scopeNotAvailable ['l', 'o', 'c', 'a', 'l'] :=
  ((claim_C4_validate_scope ['l', 'o', 'c', 'a', 'l'] ⟨fun _ => false⟩ false).2.2
    Scope.LOCAL (by decide)).2.2.mpr ⟨rfl, rfl⟩

/-- C6: mention resolution is deterministic: for a fixed filesystem and
configuration state, two calls to `MentionResolver.resolve` on the same
mention string with the same path manager, `relative_to`, environment and
filesystem return the same result. -/
theorem claim_C6_resolve_deterministic (r₁ r₂ : MentionResolver)
    (env₁ env₂ : Env) (fs₁ fs₂ : FS) (m₁ m₂ : Str)
    (hr : r₁ = r₂) (he : env₁ = env₂) (hf : fs₁ = fs₂) (hm : m₁ = m₂) :
    r₁.resolve env₁ fs₁ m₁ = r₂.resolve env₂ fs₂ m₂ := by
  subst hr; subst he; subst hf; subst hm; rfl

/-- Witness for C6 at a concrete resolver state and mention. -/
theorem claim_C6_resolve_deterministic_witness :
    MentionResolver.resolve ⟨⟨['u'], ['p'], ['b']⟩, none⟩
        ⟨['c'], ['h'], fun _ => none⟩ ⟨fun _ => true, fun _ => true, id⟩
        ['@', 'x'] =
      MentionResolver.resolve ⟨⟨['u'], ['p'], ['b']⟩, none⟩
        ⟨['c'], ['h'], fun _ => none⟩ ⟨fun _ => true, fun _ => true, id⟩
        ['@', 'x'] :=
  claim_C6_resolve_deterministic _ _ _ _ _ _ _ _ rfl rfl rfl rfl

/-- C8: for every prefixed mention `@prefix:path` (not an `@~/` mention) whose
path component contains the substring `..`, `resolve` returns `none`
regardless of the filesystem state, blocking path traversal through the
collection, user and project rules. -/
theorem claim_C8_path_traversal_blocked (r : MentionResolver) (env : Env)
    (fs : FS) (pfx path : Str) (hc : hasChar pfx ':' = false)
    (ht : isPre ['~', '/'] pfx = false)
    (hdd : hasSub ['.', '.'] path = true) :
    r.resolve env fs ('@' :: (pfx ++ ':' :: path)) = none := by
  have h2 : isPre ['@', '~', '/'] ('@' :: (pfx ++ ':' :: path)) = false := by
    have h := isPre_two_append '~' '/' pfx ':' path ht rfl rfl
    simp [isPre, h]
  unfold MentionResolver.resolve
  simp only [List.drop_succ_cons, List.drop_zero]
  rw [if_pos ⟨hasChar_append_cons pfx path ':', h2⟩,
    splitFirst_append_cons pfx path ':' hc]
  dsimp only
  rw [if_pos hdd]

/-- Witness for C8: the mention `@c:..` is rejected on a filesystem where
every path exists. -/
theorem claim_C8_path_traversal_blocked_witness :
    MentionResolver.resolve ⟨⟨['u'], ['p'], ['b']⟩, none⟩
      ⟨['c'], ['h'], fun _ => some ['k']⟩ ⟨fun _ => true, fun _ => true, id⟩
      ('@' :: (['c'] ++ ':' :: ['.', '.'])) = none :=
  claim_C8_path_traversal_blocked _ _ _ ['c'] ['.', '.'] (by decide) (by decide)
    (by decide)

/-- C1 counterexample: the claim states that a plain `@path` mention resolves
relative to the `relative_to` base (if set) and then the current working
directory.  For the mention `@./f` with `relative_to` unset, on a filesystem
where every path exists (in particular `cwd/./f`), `resolve` returns `none`
instead of resolving against the cwd — `./`-style mentions are handed to
`_resolve_relative`, which only consults `relative_to`. -/
theorem claim_C1_resolve_dispatch_counterexample :
    MentionResolver.resolve ⟨⟨['u'], ['p'], ['b']⟩, none⟩
        ⟨['c'], ['h'], fun _ => none⟩ ⟨fun _ => true, fun _ => true, id⟩
        ['@', '.', '/', 'f'] = none ∧
    FS.pathExists ⟨fun _ => true, fun _ => true, id⟩
        (pjoin ['c'] ['.', '/', 'f']) = true ∧
    claimedPlainRule ⟨⟨['u'], ['p'], ['b']⟩, none⟩ ⟨['c'], ['h'], fun _ => none⟩
        ⟨fun _ => true, fun _ => true, id⟩ ['.', '/', 'f'] =
      some ['c', '/', '.', '/', 'f'] :=
  ⟨by decide, rfl, by decide⟩

/-- C1 (amended): `resolve` applies the prefix-specific rule determined by the
mention's form.  `@user:path` resolves against `user_dir/path` and
`@project:path` against `cwd/project_dir/path`; any other `@prefix:path` (not
an `@~/` mention) is a collection reference resolved under the collection's
path, falling back to the collection path's parent when a `pyproject.toml` is
present — in all three prefixed forms provided the path component contains no
`..` (otherwise the mention is rejected, see C8).  `@~/path` resolves against
the home directory.  A plain `@path` resolves relative to the `relative_to`
base (if set) and then the current working directory, except that paths
beginning with `./` or `../` are resolved against `relative_to` alone with a
regular-file requirement. -/
theorem claim_C1_resolve_dispatch (r : MentionResolver) (env : Env) (fs : FS) :
    (∀ path, hasSub ['.', '.'] path = false →
      r.resolve env fs ('@' :: 'u' :: 's' :: 'e' :: 'r' :: ':' :: path) =
        userRule r.path_manager fs path) ∧
    (∀ path, hasSub ['.', '.'] path = false →
      r.resolve env fs
          ('@' :: 'p' :: 'r' :: 'o' :: 'j' :: 'e' :: 'c' :: 't' :: ':' :: path) =
        projectRule r.path_manager env fs path) ∧
    (∀ pfx path, hasChar pfx ':' = false → isPre ['~', '/'] pfx = false →
      pfx ≠ ['u', 's', 'e', 'r'] → pfx ≠ ['p', 'r', 'o', 'j', 'e', 'c', 't'] →
      hasSub ['.', '.'] path = false →
      r.resolve env fs ('@' :: (pfx ++ ':' :: path)) =
        collectionRule env fs pfx path) ∧
    (∀ path, r.resolve env fs ('@' :: '~' :: '/' :: path) =
      homeRule env fs path) ∧
    (∀ path, hasChar path ':' = false → isPre ['~', '/'] path = false →
      isPre ['@'] path = false →
      r.resolve env fs ('@' :: path) = plainRule r env fs path) := by
  refine ⟨?_, ?_, ?_, ?_, ?_⟩
  · intro path h
    have hred : r.resolve env fs ('@' :: 'u' :: 's' :: 'e' :: 'r' :: ':' :: path) =
        (if hasSub ['.', '.'] path = true then none
         else userRule r.path_manager fs path) := rfl
    rw [hred, if_neg (by simp [h])]
  · intro path h
    have hred : r.resolve env fs
        ('@' :: 'p' :: 'r' :: 'o' :: 'j' :: 'e' :: 'c' :: 't' :: ':' :: path) =
        (if hasSub ['.', '.'] path = true then none
         else projectRule r.path_manager env fs path) := rfl
    rw [hred, if_neg (by simp [h])]
  · intro pfx path hc ht hu hp hdd
    have h2 : isPre ['@', '~', '/'] ('@' :: (pfx ++ ':' :: path)) = false := by
      have h := isPre_two_append '~' '/' pfx ':' path ht rfl rfl
      simp [isPre, h]
    unfold MentionResolver.resolve
    simp only [List.drop_succ_cons, List.drop_zero]
    rw [if_pos ⟨hasChar_append_cons pfx path ':', h2⟩,
      splitFirst_append_cons pfx path ':' hc]
    dsimp only
    rw [if_neg (by simp [hdd]), if_neg hu, if_neg hp]
    cases hcr : env.collectionResolve pfx <;> simp [collectionRule, hcr]
  · intro path
    have hpre : isPre ['@', '~', '/'] ('@' :: '~' :: '/' :: path) = true := rfl
    unfold MentionResolver.resolve
    rw [if_neg (fun hand => absurd hand.2 (by simp [hpre])), if_pos hpre]
    rfl
  · intro path hc ht ha
    have hpre : isPre ['@', '~', '/'] ('@' :: path) = false := by
      simp [isPre, ht]
    unfold MentionResolver.resolve
    simp only [List.drop_succ_cons, List.drop_zero]
    rw [if_neg (fun hand => by rw [hc] at hand; exact absurd hand.1 (by simp)),
      if_neg (by simp [hpre]), dropWhile_at_cons path ha]
    rfl

/-- Witness for the amended C1: the `@user:a` mention resolves through the
user rule on a concrete state. -/
theorem claim_C1_resolve_dispatch_witness :
    MentionResolver.resolve ⟨⟨['u'], ['p'], ['b']⟩, none⟩
        ⟨['c'], ['h'], fun _ => none⟩ ⟨fun _ => true, fun _ => true, id⟩
        ['@', 'u', 's', 'e', 'r', ':', 'a'] =
      userRule ⟨['u'], ['p'], ['b']⟩ ⟨fun _ => true, fun _ => true, id⟩ ['a'] :=
  (claim_C1_resolve_dispatch ⟨⟨['u'], ['p'], ['b']⟩, none⟩
    ⟨['c'], ['h'], fun _ => none⟩ ⟨fun _ => true, fun _ => true, id⟩).1
    ['a'] (by decide)

theorem sectionList_set (doc : Doc) (t : Str) (l : List ModEntry) :
    sectionList (setDoc doc (sectionName t) (Value.modules l)) t = l := by
  unfold sectionList
  rw [lookup_set_self]

/-- C2: for every settings document whose section for the module type already
contains exactly one entry for a module id, `add_module` with that id does not
append a second entry: after the write the section still contains exactly one
entry whose `module` field equals that id. -/
theorem claim_C2_add_module_no_duplicate (doc : Doc)
    (module_id module_type : Str) (source config : Option Str)
    (h : ((sectionList doc module_type).filter
      (fun e => decide (e.module = module_id))).length = 1) :
    ((sectionList (add_module doc module_id module_type source config)
        module_type).filter
      (fun e => decide (e.module = module_id))).length = 1 := by
  have hany : (sectionList doc module_type).any
      (fun e => decide (e.module = module_id)) = true := by
    have hpos : 0 < ((sectionList doc module_type).filter
        (fun e => decide (e.module = module_id))).length := by omega
    obtain ⟨x, hx⟩ := List.exists_mem_of_length_pos hpos
    rw [List.mem_filter] at hx
    exact List.any_eq_true.mpr ⟨x, hx.1, hx.2⟩
  unfold add_module
  dsimp only
  rw [if_pos hany, sectionList_set]
  exact h

/-- Witness for C2 on a one-entry document: adding `m` to type `t` again
leaves exactly one `m` entry in the `ts` section. -/
theorem claim_C2_add_module_no_duplicate_witness :
    ((sectionList (add_module
        [(['t', 's'], Value.modules [⟨['m'], none, none⟩])] ['m'] ['t'] none none)
      ['t']).filter (fun e => decide (e.module = ['m']))).length = 1 :=
  claim_C2_add_module_no_duplicate _ ['m'] ['t'] none none (by decide)

/-- C3: `remove_module` deletes only the entries whose `module` field matches
the given id from the section for the given module type; when that section
becomes empty it is removed from the document entirely, and every other
top-level key of the document is written back unchanged. -/
theorem claim_C3_remove_module_frame (doc : Doc) (module_id module_type : Str) :
    (∀ k, k ≠ sectionName module_type →
      lookupDoc (remove_module doc module_id module_type).1 k =
        lookupDoc doc k) ∧
    (match lookupDoc doc (sectionName module_type) with
     | some (Value.modules l) =>
       if l.any (fun e => decide (e.module = module_id)) = true then
         lookupDoc (remove_module doc module_id module_type).1
             (sectionName module_type) =
           (if l.filter (fun e => decide (¬ e.module = module_id)) = [] then none
            else some (Value.modules
              (l.filter (fun e => decide (¬ e.module = module_id)))))
       else (remove_module doc module_id module_type).1 = doc
     | _ => (remove_module doc module_id module_type).1 = doc) := by
  cases hsec : lookupDoc doc (sectionName module_type) with
  | none =>
    have hrm : (remove_module doc module_id module_type).1 = doc := by
      unfold remove_module
      dsimp only
      rw [hsec]
    exact ⟨fun k _ => by rw [hrm], hrm⟩
  | some v =>
    cases v with
    | scalar s =>
      have hrm : (remove_module doc module_id module_type).1 = doc := by
        unfold remove_module
        dsimp only
        rw [hsec]
      exact ⟨fun k _ => by rw [hrm], hrm⟩
    | modules l =>
      by_cases hany : l.any (fun e => decide (e.module = module_id)) = true
      · by_cases hemp :
          l.filter (fun e => decide (¬ e.module = module_id)) = []
        · have hrm : (remove_module doc module_id module_type).1 =
              eraseDoc doc (sectionName module_type) := by
            unfold remove_module
            dsimp only
            rw [hsec]
            dsimp only
            rw [if_pos hany, if_pos hemp]
          refine ⟨fun k hk => by rw [hrm, lookup_erase_ne _ _ _ hk], ?_⟩
          dsimp only
          rw [if_pos hany, if_pos hemp, hrm, lookup_erase_self]
        · have hrm : (remove_module doc module_id module_type).1 =
              setDoc doc (sectionName module_type) (Value.modules
                (l.filter (fun e => decide (¬ e.module = module_id)))) := by
            unfold remove_module
            dsimp only
            rw [hsec]
            dsimp only
            rw [if_pos hany, if_neg hemp]
          refine ⟨fun k hk => by rw [hrm, lookup_set_ne _ _ _ _ hk], ?_⟩
          dsimp only
          rw [if_pos hany, if_neg hemp, hrm, lookup_set_self]
      · have hrm : (remove_module doc module_id module_type).1 = doc := by
          unfold remove_module
          dsimp only
          rw [hsec]
          dsimp only
          rw [if_neg hany]
        refine ⟨fun k _ => by rw [hrm], ?_⟩
        dsimp only
        rw [if_neg hany]
        exact hrm

/-- Witness for C3 on a concrete document: removing the only `tools` entry
leaves the unrelated key `o` unchanged. -/
theorem claim_C3_remove_module_frame_witness :
    lookupDoc (remove_module
        [(['o'], Value.scalar ['v']),
         (['t', 's'], Value.modules [⟨['m'], none, none⟩])] ['m'] ['t']).1
      ['o'] = lookupDoc
        [(['o'], Value.scalar ['v']),
         (['t', 's'], Value.modules [⟨['m'], none, none⟩])] ['o'] :=
  (claim_C3_remove_module_frame _ ['m'] ['t']).1 ['o'] (by decide)

theorem afterSave_base_dir (st : SessionStore) (i : Str) :
    (st.afterSave i).base_dir = st.base_dir := by
  unfold SessionStore.afterSave SessionStore.save
  by_cases h1 : i.isEmpty = true
  · simp [h1]
  · by_cases h2 : (hasChar i '/' || hasChar i '\\' || hasSub ['.', '.'] i) = true
    · simp [h1, h2]
    · simp [h1, h2]

theorem exists_dir_afterSave (st : SessionStore) (i id : Str) :
    (st.afterSave i).exists_dir id = true ↔
      st.exists_dir id = true ∨ (id = i ∧ isValidSessionId i = true) := by
  unfold SessionStore.afterSave SessionStore.save SessionStore.exists_dir
    isValidSessionId
  by_cases h1 : i.isEmpty = true
  · simp [h1]
  · by_cases h2 : hasChar i '/' = true <;> by_cases h3 : hasChar i '\\' = true <;>
      by_cases h4 : hasSub ['.', '.'] i = true <;>
      simp [h1, h2, h3, h4]
    by_cases hmem : i ∈ st.sessions
    · simp only [if_pos hmem]
      constructor
      · exact Or.inl
      · rintro (h | rfl)
        · exact h
        · exact hmem
    · simp only [if_neg hmem, List.mem_cons]
      constructor
      · rintro (rfl | h)
        · exact Or.inr rfl
        · exact Or.inl h
      · rintro (h | rfl)
        · exact Or.inr h
        · exact Or.inl rfl

theorem runSaves_base_dir (ops : List Str) (st : SessionStore) :
    (runSaves st ops).base_dir = st.base_dir := by
  induction ops generalizing st with
  | nil => rfl
  | cons i rest ih => rw [runSaves, ih, afterSave_base_dir]

theorem runSaves_exists_dir (ops : List Str) (st : SessionStore) (id : Str) :
    (runSaves st ops).exists_dir id = true ↔
      st.exists_dir id = true ∨ (id ∈ ops ∧ isValidSessionId id = true) := by
  induction ops generalizing st with
  | nil => simp [runSaves]
  | cons i rest ih =>
    rw [runSaves, ih, exists_dir_afterSave]
    constructor
    · rintro ((h | ⟨rfl, hv⟩) | ⟨hm, hv⟩)
      · exact Or.inl h
      · exact Or.inr ⟨List.mem_cons_self _ _, hv⟩
      · exact Or.inr ⟨List.mem_cons_of_mem _ hm, hv⟩
    · rintro (h | ⟨hm, hv⟩)
      · exact Or.inl (Or.inl h)
      · rcases List.mem_cons.mp hm with rfl | hm'
        · exact Or.inl (Or.inr ⟨rfl, hv⟩)
        · exact Or.inr ⟨hm', hv⟩

/-- C7: session persistence is directory-per-session: starting from a fresh
store, every sequence of `save` calls keeps the base directory fixed, a
session's directory is named by its id directly beneath `base_dir`, and
`exists` returns `True` for an id exactly when some save of that (valid) id
was performed. -/
theorem claim_C7_directory_per_session (base : Str) (ops : List Str)
    (id : Str) :
    (runSaves ⟨base, []⟩ ops).base_dir = base ∧
    (runSaves ⟨base, []⟩ ops).session_dir id = pjoin base id ∧
    ((runSaves ⟨base, []⟩ ops).exists_dir id = true ↔
      id ∈ ops ∧ isValidSessionId id = true) := by
  refine ⟨runSaves_base_dir ops _, ?_, ?_⟩
  · unfold SessionStore.session_dir
    rw [runSaves_base_dir]
  · rw [runSaves_exists_dir]
    simp [SessionStore.exists_dir]

/-- Witness for C7: after saving the session `a` in a fresh store, `exists`
reports it. -/
theorem claim_C7_directory_per_session_witness :
    (runSaves ⟨['b'], []⟩ [['a']]).exists_dir ['a'] = true :=
  (claim_C7_directory_per_session ['b'] [['a']] ['a']).2.2.mpr (by decide)

/-- C9: `SessionStore.save` rejects exactly the invalid session ids — the
empty string and any id containing a path separator or a parent-directory
`..` component — and on rejection the store (hence the set of session
directories) is unchanged. -/
theorem claim_C9_save_rejects_invalid_ids (st : SessionStore) (id : Str) :
    ((∃ msg, st.save id = Except.error msg) ↔ isValidSessionId id = false) ∧
    (isValidSessionId id = false → st.afterSave id = st) := by
  unfold SessionStore.afterSave SessionStore.save isValidSessionId
  by_cases h1 : id.isEmpty = true
  · simp [h1]
  · by_cases h2 : hasChar id '/' = true <;> by_cases h3 : hasChar id '\\' = true <;>
      by_cases h4 : hasSub ['.', '.'] id = true <;>
      simp [h1, h2, h3, h4]

/-- Witness for C9: saving the id `..` leaves a concrete store unchanged. -/
theorem claim_C9_save_rejects_invalid_ids_witness :
    SessionStore.afterSave ⟨['b'], []⟩ ['.', '.'] = ⟨['b'], []⟩ :=
  (claim_C9_save_rejects_invalid_ids ⟨['b'], []⟩ ['.', '.']).2 (by decide)

end AmplifierFoundation
